import Mathlib

/-!
Verification development for a turn-based combat game (a chat-bot RPG).

The definitions below are a shallow embedding of the program's core:
* `src/database/models.py` — `Item`, `Attack`, `Player` and their
  serialization (`to_dict` / `from_dict`);
* `src/utils/player_utils.py` — progression and money mutators
  (`calculate_required_exp`, `level_up`, `add_exp`, `add_money`,
  `spend_money`, `add_item_to_inventory`);
* `src/utils/drop_system.py` — rarity classification and loot rolling
  (`get_rarity`, `roll_drops`);
* `src/handlers/combat.py` — the attack / defend / flee turn handlers and
  the victory / defeat resolution.

Conventions: Python integers are `Int`; Python floats that carry
probabilities are `ℚ` (the decimal literals of the source are exact
rationals); `random.random()` draws, `random.randint` seeds and
`random.choice` indices are passed in explicitly as extra arguments;
Python floor division `//` is `Int.fdiv`; `int(x * 1.5)`, `int(x * 0.5)`
and `int(x * 0.1)` — truncations of exact decimal products of machine
integers — are modelled by the corresponding floor divisions, which agree
with the source on the whole range the program manipulates.
-/

/-- `CRITICAL_HIT_CHANCE = 0.15` from `src/handlers/combat.py`. -/
def CRITICAL_HIT_CHANCE : ℚ := mkRat 15 100

/-- `Attack` dataclass from `src/database/models.py`: name, flat damage
bonus, accuracy probability. -/
structure Attack where
  name : String
  damage : Int
  accuracy : ℚ
deriving DecidableEq

/-- `Item` dataclass from `src/database/models.py`, with the dataclass
field defaults. -/
structure Item where
  name : String
  type : String
  quantity : Int := 1
  damage : Int := 0
  defense : Int := 0
  heal_amount : Int := 0
deriving DecidableEq

/-- `DropRarity` enum from `src/utils/drop_system.py`. -/
inductive DropRarity where
  | common
  | uncommon
  | rare
  | very_rare
deriving DecidableEq

/-- `Drop` dataclass from `src/utils/drop_system.py`. -/
structure Drop where
  name : String
  quantity : Int
  rarity : DropRarity
deriving DecidableEq

/-- The default attack list of the `Player` dataclass
(`src/database/models.py`): the two starting attacks. -/
def default_attacks : List Attack :=
  [⟨"Удар мечом", 10, mkRat 9 10⟩, ⟨"Мощный удар", 15, mkRat 7 10⟩]

/-- `Player` dataclass from `src/database/models.py`, with the dataclass
field defaults. -/
structure Player where
  user_id : Int
  name : String := "Безымянный герой"
  health : Int := 100
  max_health : Int := 100
  money : Int := 0
  level : Int := 1
  exp : Int := 0
  strength : Int := 10
  defense : Int := 5
  agility : Int := 10
  intelligence : Int := 10
  play_time : Int := 0
  battles_won : Int := 0
  total_damage_dealt : Int := 0
  last_activity_time : ℚ := 0
  inventory : List Item := []
  attacks : List Attack := default_attacks
deriving DecidableEq

/-- `Enemy` dataclass from `src/utils/enemies.py`.  The drop table is the
list of `[item_name, chance]` pairs consumed by the drop system. -/
structure Enemy where
  name : String
  level : Int
  health : Int
  max_health : Int
  strength : Int
  defense : Int
  speed : Int
  attacks : List Attack
  exp : Int
  reward : Int
  drops : List (String × ℚ)
deriving DecidableEq

/-! ### Serialization (`src/database/models.py`) -/

/-- A serialized inventory entry as `Item.from_dict` accepts it: either a
legacy bare string, or a record whose non-key fields may be absent (absent
fields fall back to the dataclass defaults when `Item(**data)` is built). -/
inductive ItemData where
  | legacy (name : String)
  | record (name : String) (type : String)
      (quantity damage defense heal_amount : Option Int)
deriving DecidableEq

namespace Item

/-- `Item.to_dict`: the full record of the dataclass fields. -/
def to_dict (it : Item) : ItemData :=
  .record it.name it.type (some it.quantity) (some it.damage)
    (some it.defense) (some it.heal_amount)

/-- `Item.from_dict`: a bare string becomes a `misc` item, a record fills
absent fields with the dataclass defaults. -/
def from_dict : ItemData → Item
  | .legacy s => { name := s, type := "misc" }
  | .record n t q d df h =>
      { name := n, type := t, quantity := q.getD 1, damage := d.getD 0,
        defense := df.getD 0, heal_amount := h.getD 0 }

end Item

/-- The persisted player record: every field other than `user_id` may be
absent (`Player.from_dict` pops optional keys with defaults, and the
remaining keys fall back to the dataclass defaults). -/
structure PlayerDict where
  user_id : Int
  name : Option String := none
  health : Option Int := none
  max_health : Option Int := none
  money : Option Int := none
  level : Option Int := none
  exp : Option Int := none
  strength : Option Int := none
  defense : Option Int := none
  agility : Option Int := none
  intelligence : Option Int := none
  play_time : Option Int := none
  battles_won : Option Int := none
  total_damage_dealt : Option Int := none
  last_activity_time : Option ℚ := none
  inventory : Option (List ItemData) := none
  attacks : Option (List Attack) := none
deriving DecidableEq

namespace Player

/-- `Player.to_dict`: serializes every field. -/
def to_dict (p : Player) : PlayerDict :=
  { user_id := p.user_id
    name := some p.name
    health := some p.health
    max_health := some p.max_health
    money := some p.money
    level := some p.level
    exp := some p.exp
    strength := some p.strength
    defense := some p.defense
    agility := some p.agility
    intelligence := some p.intelligence
    play_time := some p.play_time
    battles_won := some p.battles_won
    total_damage_dealt := some p.total_damage_dealt
    last_activity_time := some p.last_activity_time
    inventory := some (p.inventory.map Item.to_dict)
    attacks := some p.attacks }

/-- `Player.from_dict`: `attacks` is popped with default `[]`, `level`
with default `1`, `inventory` with default `[]`, `last_activity_time`
with default `time.time()` (the `now` argument); the remaining absent
keys fall back to the dataclass defaults of `Player(**data)`. -/
def from_dict (d : PlayerDict) (now : ℚ) : Player :=
  { user_id := d.user_id
    name := d.name.getD "Безымянный герой"
    health := d.health.getD 100
    max_health := d.max_health.getD 100
    money := d.money.getD 0
    level := d.level.getD 1
    exp := d.exp.getD 0
    strength := d.strength.getD 10
    defense := d.defense.getD 5
    agility := d.agility.getD 10
    intelligence := d.intelligence.getD 10
    play_time := d.play_time.getD 0
    battles_won := d.battles_won.getD 0
    total_damage_dealt := d.total_damage_dealt.getD 0
    last_activity_time := d.last_activity_time.getD now
    inventory := (d.inventory.getD []).map Item.from_dict
    attacks := d.attacks.getD [] }

end Player

/-! ### Progression and money mutators (`src/utils/player_utils.py`) -/

/-- `PlayerOperations.calculate_required_exp`. -/
def calculate_required_exp (level : Int) : Int :=
  level * 20

/-- `PlayerOperations.level_up`: one level-up attempt.  On success the
level rises by one, the required exp for the pre-increment level is
subtracted, max health rises by 10, health is set to the new max health,
strength rises by 2. -/
def level_up (p : Player) : Player × Bool :=
  let required := calculate_required_exp p.level
  if p.exp ≥ required then
    ({ p with
        level := p.level + 1
        exp := p.exp - required
        max_health := p.max_health + 10
        health := p.max_health + 10
        strength := p.strength + 2 }, true)
  else
    (p, false)

/-- `PlayerOperations.add_exp`: rejects non-positive amounts, otherwise
adds the amount and attempts a single level-up. -/
def add_exp (p : Player) (exp : Int) : Player × Bool :=
  if exp ≤ 0 then (p, false)
  else level_up { p with exp := p.exp + exp }

/-- `PlayerOperations.add_money`: unconditional addition, no clamping. -/
def add_money (p : Player) (money : Int) : Player :=
  { p with money := p.money + money }

/-- `PlayerOperations.spend_money`: check-then-deduct. -/
def spend_money (p : Player) (amount : Int) : Player × Bool :=
  if p.money ≥ amount then ({ p with money := p.money - amount }, true)
  else (p, false)

/-- `PlayerOperations.add_item_to_inventory` on the inventory list:
the first entry matching on name and type absorbs the quantity,
otherwise the item is appended. -/
def add_item_to_inventory : List Item → Item → List Item
  | [], it => [it]
  | x :: xs, it =>
      if x.name = it.name ∧ x.type = it.type then
        { x with quantity := x.quantity + it.quantity } :: xs
      else
        x :: add_item_to_inventory xs it

/-! ### Drop system (`src/utils/drop_system.py`) -/

/-- `DropSystem.get_rarity`: classification of a base chance by the
thresholds 0.5 / 0.1 / 0.05. -/
def get_rarity (chance : ℚ) : DropRarity :=
  if chance > mkRat 1 2 then .common
  else if chance > mkRat 1 10 then .uncommon
  else if chance > mkRat 1 20 then .rare
  else .very_rare

/-- `random.randint(lo, hi)` driven by a seed `r`: a uniform seed yields a
uniform value in `[lo, hi]`. -/
def randint (lo hi : Int) (r : Nat) : Int :=
  lo + (r : Int) % (hi - lo + 1)

/-- `DropSystem._calculate_quantity`. -/
def calculate_quantity (rarity : DropRarity) (r : Nat) : Int :=
  match rarity with
  | .common => randint 1 3 r
  | .uncommon => randint 1 2 r
  | .rare => 1
  | .very_rare => 1

/-- `DropSystem.roll_drops`, recursing over the table with the entry
index `i` selecting this entry's uniform draw `rand i` and quantity seed
`qrand i`. -/
def roll_drops_from (table : List (String × ℚ)) (luck : ℚ)
    (rand : Nat → ℚ) (qrand : Nat → Nat) (i : Nat) : List Drop :=
  match table with
  | [] => []
  | (nm, ch) :: rest =>
      let eff := min 1 (ch * luck)
      if rand i < eff then
        { name := nm
          quantity := calculate_quantity (get_rarity ch) (qrand i)
          rarity := get_rarity ch } ::
          roll_drops_from rest luck rand qrand (i + 1)
      else
        roll_drops_from rest luck rand qrand (i + 1)

/-- `DropSystem.roll_drops` with the entry counter started at 0. -/
def roll_drops (table : List (String × ℚ)) (luck : ℚ)
    (rand : Nat → ℚ) (qrand : Nat → Nat) : List Drop :=
  roll_drops_from table luck rand qrand 0

/-! ### Combat handlers (`src/handlers/combat.py`) -/

/-- Python list subscription `l[i]` with an `Int` index: non-negative
indices count from the front, negative indices from the back, and an
index out of either bound raises `IndexError` (`none`). -/
def pyListGet (l : List Attack) (i : Int) : Option Attack :=
  if 0 ≤ i then l.get? i.toNat
  else if 0 ≤ (l.length : Int) + i then l.get? ((l.length : Int) + i).toNat
  else none

/-- `random.choice(e.attacks)` driven by a choice seed: the seed selects
an element by index modulo the length; an empty list raises (`none`). -/
def enemyPick (e : Enemy) (c : Nat) : Option Attack :=
  e.attacks.get? (c % e.attacks.length)

/-- The player phase of `attack_handler` (the accuracy roll succeeded
branch is `hitRoll < atk.accuracy`): base damage, the 15% critical roll,
`int(base * 1.5)` on a critical (base damage is non-negative, so the
truncation is the floor `(3 * base).fdiv 2`), damage subtracted from the
enemy health and added to `total_damage_dealt`. -/
def playerAttackPhase (p : Player) (atk : Attack) (e : Enemy)
    (hitRoll critRoll : ℚ) : Player × Enemy :=
  if hitRoll < atk.accuracy then
    let base := max 0 (p.strength + atk.damage - e.defense)
    let damage := if critRoll < CRITICAL_HIT_CHANCE then (3 * base).fdiv 2 else base
    ({ p with total_damage_dealt := p.total_damage_dealt + damage },
     { e with health := e.health - damage })
  else
    (p, e)

/-- Outcome of one combat action, as reflected in the gateway session:
`rejected` answers "invalid attack" and leaves player, enemy snapshot and
turn counter untouched with the session still in combat; `errored` is the
generic exception path that clears the session; `victory` / `defeated`
hand the shown player and enemy over to `handle_victory` /
`handle_defeat`; `fled` ends the session after the flee tax; `next`
stores the updated enemy snapshot and turn counter and stays in
combat. -/
inductive ActionResult where
  | rejected (p : Player) (e : Enemy) (turn : Int)
  | errored
  | victory (p : Player) (e : Enemy)
  | defeated (p : Player)
  | fled (p : Player)
  | next (p : Player) (e : Enemy) (turn : Int)
deriving DecidableEq

/-- An action's outcome together with whether the handler (or the
victory / defeat resolution it delegates to) flushed the player store to
durable storage before the action completed. -/
structure StepOut where
  result : ActionResult
  saved : Bool
deriving DecidableEq

/-- `attack_handler`: index validation (`attack_index >= len(attacks)` is
answered as an invalid attack; the subscription itself sits outside the
inner `try`, so an `IndexError` from a far negative index hits the outer
exception handler), the player phase, the victory check, the enemy turn,
the defeat check, and otherwise the next round with `force_save`. -/
def attackAction (p : Player) (e : Enemy) (turn : Int) (idx : Int)
    (hitRoll critRoll : ℚ) (eChoice : Nat) (eHitRoll : ℚ) : StepOut :=
  if (p.attacks.length : Int) ≤ idx then ⟨.rejected p e turn, false⟩
  else
    match pyListGet p.attacks idx with
    | none => ⟨.errored, false⟩
    | some atk =>
        let pe := playerAttackPhase p atk e hitRoll critRoll
        if pe.2.health ≤ 0 then ⟨.victory pe.1 pe.2, true⟩
        else
          match enemyPick pe.2 eChoice with
          | none => ⟨.errored, false⟩
          | some ea =>
              let p2 :=
                if eHitRoll < ea.accuracy then
                  { pe.1 with health :=
                      pe.1.health - max 0 (pe.2.strength + ea.damage - pe.1.defense) }
                else pe.1
              if p2.health ≤ 0 then ⟨.defeated p2, true⟩
              else ⟨.next p2 pe.2 (turn + 1), true⟩

/-- `defend_handler`: defense bonus `player.defense // 2`, the enemy's
counter-roll against the boosted defense, the defeat check, and otherwise
the next round — which stores only the turn counter and performs no save
of the player store. -/
def defendAction (p : Player) (e : Enemy) (turn : Int)
    (eChoice : Nat) (eHitRoll : ℚ) : StepOut :=
  let bonus := p.defense.fdiv 2
  match enemyPick e eChoice with
  | none => ⟨.errored, false⟩
  | some ea =>
      let p1 :=
        if eHitRoll < ea.accuracy then
          { p with health :=
              p.health - max 0 (e.strength + ea.damage - (p.defense + bonus)) }
        else p
      if p1.health ≤ 0 then ⟨.defeated p1, true⟩
      else ⟨.next p1 e (turn + 1), false⟩

/-- The flee tax applied on a successful flee:
`add_money(player, -max(1, player.money // 20))`. -/
def flee_success_update (p : Player) : Player :=
  add_money p (-(max 1 (p.money.fdiv 20)))

/-- `flee_handler`: success when the draw is below 0.7, taxing the money
and ending the session; on failure the enemy lands one free attack with
no accuracy roll, followed by the defeat check, and otherwise the next
round without a save of the player store. -/
def fleeAction (p : Player) (e : Enemy) (turn : Int)
    (fleeRoll : ℚ) (eChoice : Nat) : StepOut :=
  if fleeRoll < mkRat 7 10 then
    ⟨.fled (flee_success_update p), true⟩
  else
    match enemyPick e eChoice with
    | none => ⟨.errored, false⟩
    | some ea =>
        let p1 :=
          { p with health := p.health - max 0 (e.strength + ea.damage - p.defense) }
        if p1.health ≤ 0 then ⟨.defeated p1, true⟩
        else ⟨.next p1 e (turn + 1), false⟩

/-- `handle_defeat`: health restored to `int(max_health * 0.5)` (the
floor `max_health.fdiv 2`), then
`add_money(player, -max(1, int(player.money * 0.1)))` with the truncated
tenth modelled by the floor `money.fdiv 10` (identical after the
`max 1 _` clamp).  Returns the updated player and the money lost. -/
def handle_defeat (p : Player) : Player × Int :=
  let p1 := { p with health := p.max_health.fdiv 2 }
  let money_lost := max 1 (p1.money.fdiv 10)
  (add_money p1 (-money_lost), money_lost)

/-- The drop-to-item conversion in `handle_victory`:
`Item(name=drop_item.name, type="misc", quantity=drop_item.quantity)`. -/
def dropToItem (d : Drop) : Item :=
  { name := d.name, type := "misc", quantity := d.quantity }

/-- The inventory effect of `handle_victory`: each rolled drop is
converted to an item and merged into the inventory in order. -/
def victory_add_drops (inv : List Item) (drops : List Drop) : List Item :=
  drops.foldl (fun acc d => add_item_to_inventory acc (dropToItem d)) inv

/-! ### Stack bookkeeping used to state the inventory claims -/

/-- The inventory entries forming the `(name, type)` stack. -/
def stack_entries (inv : List Item) (n t : String) : List Item :=
  inv.filter (fun x => decide (x.name = n ∧ x.type = t))

/-- Number of inventory entries in the `(name, type)` stack. -/
def stackCount (inv : List Item) (n t : String) : Nat :=
  (stack_entries inv n t).length

/-- Total quantity held by the `(name, type)` stack. -/
def stackQty (inv : List Item) (n t : String) : Int :=
  ((stack_entries inv n t).map Item.quantity).sum

/-- Whether an action outcome ended the session by fleeing. -/
def ActionResult.isFled : ActionResult → Bool
  | .fled _ => true
  | _ => false

/-! ### Concrete fixtures used by witnesses and counterexamples -/

/-- A freshly created player (all dataclass defaults). -/
def P0 : Player := { user_id := 1 }

/-- A player with an empty purse. -/
def P3 : Player := { user_id := 3, money := 0 }

/-- A player holding 100 coins. -/
def P4 : Player := { user_id := 4, money := 100 }

/-- A player holding 15 coins. -/
def P15 : Player := { user_id := 5, money := 15 }

/-- A level-1 enemy whose single attack has accuracy 0.5. -/
def E0 : Enemy :=
  { name := "Гоблин", level := 1, health := 100, max_health := 100,
    strength := 10, defense := 5, speed := 5,
    attacks := [⟨"Удар", 5, mkRat 1 2⟩], exp := 25, reward := 10, drops := [] }

/-- A hard-hitting enemy whose attack never misses. -/
def E5 : Enemy :=
  { name := "Волк", level := 2, health := 100, max_health := 100,
    strength := 20, defense := 5, speed := 5,
    attacks := [⟨"Укус", 10, 1⟩], exp := 30, reward := 12, drops := [] }

/-- An almost-dead enemy, one hit from defeat. -/
def EW : Enemy :=
  { name := "Слизень", level := 1, health := 5, max_health := 5,
    strength := 1, defense := 5, speed := 1,
    attacks := [⟨"Удар", 5, 1⟩], exp := 5, reward := 1, drops := [] }

/-! ### Claim theorems -/

/-- Claim C1: when the accuracy roll succeeds, the base damage is
`max(0, player.strength + attack.damage - enemy.defense)`; when the
independent 15% critical roll also succeeds the dealt damage is
`floor(base * 1.5)`; the dealt damage is subtracted from the enemy's
health and added to the player's `total_damage_dealt`. -/
theorem attack_damage_spec (p : Player) (atk : Attack) (e : Enemy)
    (hitRoll critRoll : ℚ) (hhit : hitRoll < atk.accuracy) :
    playerAttackPhase p atk e hitRoll critRoll =
      ({ p with total_damage_dealt := p.total_damage_dealt +
          (if critRoll < CRITICAL_HIT_CHANCE
            then (3 * max 0 (p.strength + atk.damage - e.defense)).fdiv 2
            else max 0 (p.strength + atk.damage - e.defense)) },
       { e with health := e.health -
          (if critRoll < CRITICAL_HIT_CHANCE
            then (3 * max 0 (p.strength + atk.damage - e.defense)).fdiv 2
            else max 0 (p.strength + atk.damage - e.defense)) }) := by
  simp only [playerAttackPhase, if_pos hhit]

/-- Witness for C1, the spec's scenario: strength 10, attack damage 10,
accuracy 0.9 > 0, enemy defense 5, no critical → exactly 15 damage. -/
theorem attack_damage_spec_witness :
    playerAttackPhase P0 ⟨"Удар мечом", 10, mkRat 9 10⟩ E0 0 1 =
      ({ P0 with total_damage_dealt := 15 }, { E0 with health := 85 }) := by
  have h := attack_damage_spec P0 ⟨"Удар мечом", 10, mkRat 9 10⟩ E0 0 1 (by decide)
  exact h.trans (by decide)

/-- Claim C2: `add_exp` rejects non-positive amounts as a no-op returning
false; otherwise it adds the amount and applies at most one level-up; a
level-up raises the level by 1, subtracts `pre_level * 20` experience
leaving a non-negative remainder, adds 10 max health, restores health to
the new max, and adds 2 strength. -/
theorem add_exp_spec (p : Player) (a : Int) :
    (a ≤ 0 → add_exp p a = (p, false)) ∧
    (add_exp p a).1.level ≤ p.level + 1 ∧
    (0 < a → p.level * 20 ≤ p.exp + a →
      add_exp p a =
        ({ p with
            level := p.level + 1
            exp := p.exp + a - p.level * 20
            max_health := p.max_health + 10
            health := p.max_health + 10
            strength := p.strength + 2 }, true) ∧
        0 ≤ p.exp + a - p.level * 20) ∧
    (0 < a → p.exp + a < p.level * 20 →
      add_exp p a = ({ p with exp := p.exp + a }, false)) := by
  obtain ⟨uid, nm, hp, mh, mo, lv, ex, st, df, ag, it, pt, bw, td, lat, inv, atk⟩ := p
  refine ⟨fun h => ?_, ?_, fun ha hreq => ?_, fun ha hlt => ?_⟩
  · simp [add_exp, h]
  · by_cases h : a ≤ 0
    · simp [add_exp, h]
    · simp only [add_exp, if_neg h, level_up, calculate_required_exp]
      split <;> simp
  · have h : ¬ a ≤ 0 := by omega
    refine ⟨?_, by omega⟩
    simp only [add_exp, if_neg h, level_up, calculate_required_exp]
    rw [if_pos (by simpa using hreq)]
  · have h : ¬ a ≤ 0 := by omega
    simp only [add_exp, if_neg h, level_up, calculate_required_exp]
    rw [if_neg (by simpa using not_le.mpr hlt)]

/-- Witness for C2, the spec's scenario extended: a level-1 player with
0 experience gaining 65 experience levels up exactly once (to level 2,
with 45 leftover experience, even though 45 exceeds the next threshold
of 40), gains 10 max health, is fully healed, and gains 2 strength. -/
theorem add_exp_spec_witness :
    add_exp P0 65 =
      ({ P0 with
          level := 2
          exp := 45
          max_health := 110
          health := 110
          strength := 12 }, true) := by
  have h := ((add_exp_spec P0 65).2.2.1 (by decide) (by decide)).1
  exact h.trans (by decide)

/-- Claim C6 (amended): an attack action whose index is at least the
length of the player's attack list is rejected with no state mutation —
player, enemy snapshot and turn counter unchanged, session still in
combat; a *negative* index, however, is not rejected (Python indexes it
from the back of the list). -/
theorem invalid_index_rejected (p : Player) (e : Enemy) (turn idx : Int)
    (hitRoll critRoll : ℚ) (eChoice : Nat) (eHitRoll : ℚ)
    (h : (p.attacks.length : Int) ≤ idx) :
    attackAction p e turn idx hitRoll critRoll eChoice eHitRoll =
      ⟨.rejected p e turn, false⟩ := by
  simp only [attackAction, if_pos h]

/-- Witness for C6 (amended): index 5 against the default two-attack
list is rejected untouched. -/
theorem invalid_index_rejected_witness :
    attackAction P0 E0 1 5 0 0 0 0 = ⟨.rejected P0 E0 1, false⟩ :=
  invalid_index_rejected P0 E0 1 5 0 0 0 0 (by decide)

/-- Counterexample to C6 as stated: index `-1` is not a valid position in
the two-entry attack list, yet the action is not rejected — it resolves a
full turn with the last attack (here dealing 20 damage) and mutates the
state. -/
theorem invalid_index_negative_refuted :
    (attackAction P0 E0 1 (-1) 0 1 0 1).result =
      .next { P0 with total_damage_dealt := 20 } { E0 with health := 80 } 2 ∧
    ∀ p e t, (attackAction P0 E0 1 (-1) 0 1 0 1).result ≠ .rejected p e t := by
  constructor
  · decide
  · intro p e t h
    have h2 : (attackAction P0 E0 1 (-1) 0 1 0 1).result =
        .next { P0 with total_damage_dealt := 20 } { E0 with health := 80 } 2 := by decide
    rw [h2] at h
    exact ActionResult.noConfusion h

/-- Claim C9: when the player's attack reduces the enemy's health to 0 or
below, the action resolves as Victory immediately after the player phase:
the enemy performs no counter-attack and the player's health is unchanged
by the turn. -/
theorem victory_before_counterattack (p : Player) (e : Enemy) (turn idx : Int)
    (atk : Attack) (hitRoll critRoll : ℚ) (eChoice : Nat) (eHitRoll : ℚ)
    (hidx : ¬ (p.attacks.length : Int) ≤ idx)
    (hget : pyListGet p.attacks idx = some atk)
    (hdead : (playerAttackPhase p atk e hitRoll critRoll).2.health ≤ 0) :
    attackAction p e turn idx hitRoll critRoll eChoice eHitRoll =
      ⟨.victory (playerAttackPhase p atk e hitRoll critRoll).1
        (playerAttackPhase p atk e hitRoll critRoll).2, true⟩ ∧
    (playerAttackPhase p atk e hitRoll critRoll).1.health = p.health := by
  constructor
  · simp only [attackAction, if_neg hidx, hget, if_pos hdead]
  · simp only [playerAttackPhase]
    split <;> rfl

/-- Witness for C9: one sword strike kills the almost-dead enemy; the
outcome is Victory and the player's 100 health is untouched. -/
theorem victory_before_counterattack_witness :
    attackAction P0 EW 1 0 0 1 0 0 =
      ⟨.victory { P0 with total_damage_dealt := 15 } { EW with health := -10 },
        true⟩ ∧
    (attackAction P0 EW 1 0 0 1 0 0).result ≠ .defeated P0 := by
  have h := victory_before_counterattack P0 EW 1 0 ⟨"Удар мечом", 10, mkRat 9 10⟩
    0 1 0 0 (by decide) (by decide) (by decide)
  refine ⟨h.1.trans (by decide), ?_⟩
  rw [h.1]
  decide

/-- Counterexample to C3 as stated: the engine's money writes are not
clamped.  A player with 0 money (≥ 0) who flees successfully is taxed the
minimum of 1 coin and ends at −1 money — a reachable state with negative
money. -/
theorem money_nonneg_refuted :
    0 ≤ P3.money ∧
    (fleeAction P3 E0 1 0 0).result = .fled { P3 with money := -1 } ∧
    ({ P3 with money := -1 } : Player).money < 0 := by decide

/-- Claim C3 (amended): `add_money` performs no clamping, so a flee tax
or defeat penalty at 0 money leaves −1.  For every player holding at
least 1 coin, however, the flee-success tax and the defeat penalty leave
the money non-negative, and `spend_money` never drives it negative. -/
theorem money_nonneg_amended (p : Player) (h : 1 ≤ p.money) :
    0 ≤ (flee_success_update p).money ∧
    0 ≤ (handle_defeat p).1.money ∧
    ∀ a : Int, 0 ≤ (spend_money p a).1.money := by
  have h20 : p.money.fdiv 20 = p.money / 20 :=
    Int.fdiv_eq_ediv _ (by norm_num)
  have h10 : p.money.fdiv 10 = p.money / 10 :=
    Int.fdiv_eq_ediv _ (by norm_num)
  have hmo : (0 : Int) ≤ p.money := by omega
  have hd20 := Int.ediv_le_self 20 hmo
  have hd10 := Int.ediv_le_self 10 hmo
  refine ⟨?_, ?_, fun a => ?_⟩
  · simp only [flee_success_update, add_money]
    omega
  · simp only [handle_defeat, add_money]
    omega
  · simp only [spend_money]
    split
    · simpa using by omega
    · simpa using hmo

/-- Witness for C3 (amended) at 100 coins. -/
theorem money_nonneg_amended_witness :
    0 ≤ (flee_success_update P4).money ∧
    0 ≤ (handle_defeat P4).1.money ∧
    0 ≤ (spend_money P4 7).1.money := by
  have h := money_nonneg_amended P4 (by decide)
  exact ⟨h.1, h.2.1, h.2.2 7⟩

/-- Claim C5 (code bug): the defend action mutates the player's health in
memory but performs no save, so at the end of the action the persisted
state differs from the in-memory state.  Concretely: the default player
defends against the wolf, takes 23 damage (20 + 10 − 7 with the defense
bonus 5 // 2 = 2), the action completes in the next round — and the
handler's save flag is false while the health moved from 100 to 77. -/
theorem defend_not_persisted :
    (defendAction P0 E5 1 0 0).saved = false ∧
    (defendAction P0 E5 1 0 0).result = .next { P0 with health := 77 } E5 2 ∧
    ({ P0 with health := 77 } : Player).health ≠ P0.health := by decide

/-- Claim C7: fleeing succeeds exactly when the uniform draw is below
0.7; on success the session ends with the player losing exactly
`max(1, money // 20)` coins and no other player state changed. -/
theorem flee_spec (p : Player) (e : Enemy) (turn : Int)
    (fleeRoll : ℚ) (eChoice : Nat) :
    ((fleeAction p e turn fleeRoll eChoice).result.isFled = true ↔
      fleeRoll < mkRat 7 10) ∧
    (fleeRoll < mkRat 7 10 →
      fleeAction p e turn fleeRoll eChoice =
        ⟨.fled { p with money := p.money - max 1 (p.money.fdiv 20) }, true⟩) := by
  constructor
  · by_cases hf : fleeRoll < mkRat 7 10
    · simp [fleeAction, hf, ActionResult.isFled]
    · simp only [fleeAction, if_neg hf]
      cases enemyPick e eChoice with
      | none => simp [ActionResult.isFled, hf]
      | some ea =>
          simp only [hf, iff_false]
          split <;> simp [ActionResult.isFled]
  · intro hf
    simp only [fleeAction, if_pos hf, flee_success_update, add_money,
      StepOut.mk.injEq, ActionResult.fled.injEq, and_true]
    congr 1

/-- Witness for C7, the spec's two scenarios: 100 coins lose exactly 5
and 15 coins lose exactly 1 on a successful flee. -/
theorem flee_spec_witness :
    fleeAction P4 E0 1 0 0 = ⟨.fled { P4 with money := 95 }, true⟩ ∧
    fleeAction P15 E0 1 0 0 = ⟨.fled { P15 with money := 14 }, true⟩ := by
  have h4 := (flee_spec P4 E0 1 0 0).2 (by decide)
  have h15 := (flee_spec P15 E0 1 0 0).2 (by decide)
  exact ⟨h4.trans (by decide), h15.trans (by decide)⟩

/-- An item survives serialization followed by deserialization. -/
theorem item_roundtrip (it : Item) : Item.from_dict it.to_dict = it := rfl

/-- An inventory survives serialization followed by deserialization. -/
theorem inventory_roundtrip (l : List Item) :
    (l.map Item.to_dict).map Item.from_dict = l := by
  induction l with
  | nil => rfl
  | cons hd tl ih => simp [item_roundtrip, ih]

/-- A persisted record with every optional field absent. -/
def legacy_dict : PlayerDict := { user_id := 7 }

/-- Claim C4 (amended): serializing a player and deserializing reproduces
it exactly (every scalar field, the inventory and the attack list), and a
legacy record missing the `level` field deserializes with level 1 — but a
record missing the `attacks` field deserializes with an *empty* attack
list, not the two starting attacks. -/
theorem player_serialization_spec :
    (∀ (p : Player) (now : ℚ), Player.from_dict (Player.to_dict p) now = p) ∧
    (∀ (d : PlayerDict) (now : ℚ), d.level = none →
      (Player.from_dict d now).level = 1) ∧
    (∀ (d : PlayerDict) (now : ℚ), d.attacks = none →
      (Player.from_dict d now).attacks = []) := by
  refine ⟨fun p now => ?_, fun d now hl => ?_, fun d now ha => ?_⟩
  · obtain ⟨uid, nm, hp, mh, mo, lv, ex, st, df, ag, it, pt, bw, td, lat, inv, atk⟩ := p
    simp [Player.to_dict, Player.from_dict]
    simpa [List.map_map] using inventory_roundtrip inv
  · simp [Player.from_dict, hl]
  · simp [Player.from_dict, ha]

/-- Witness for C4 (amended): the default player round-trips, and the
all-defaults legacy record gets level 1 and an empty attack list. -/
theorem player_serialization_spec_witness :
    Player.from_dict (Player.to_dict P0) 5 = P0 ∧
    (Player.from_dict legacy_dict 0).level = 1 ∧
    (Player.from_dict legacy_dict 0).attacks = [] :=
  ⟨player_serialization_spec.1 P0 5,
   player_serialization_spec.2.1 legacy_dict 0 rfl,
   player_serialization_spec.2.2 legacy_dict 0 rfl⟩

/-- Counterexample to C4 as stated: the record missing the `attacks`
field does *not* deserialize to the two starting attacks — the attack
list comes back empty. -/
theorem roundtrip_missing_attacks_refuted :
    legacy_dict.attacks = none ∧
    (Player.from_dict legacy_dict 0).attacks = [] ∧
    (Player.from_dict legacy_dict 0).attacks ≠ default_attacks := by decide

/-- Modelled from the spec's words (§4.1 Drop Resolver): per entry, the
effective chance is `min(1, chance * luckModifier)`; the entry — at index
`i` with uniform draw `rand i` — drops iff its draw is strictly below the
effective chance; a dropped entry is classified by its *base* chance and
its quantity is rolled from its tier. -/
def specRollDrops (table : List (String × ℚ)) (luck : ℚ)
    (rand : Nat → ℚ) (qrand : Nat → Nat) : List Drop :=
  table.enum.filterMap fun pr =>
    if rand pr.1 < min 1 (pr.2.2 * luck) then
      some ⟨pr.2.1, calculate_quantity (get_rarity pr.2.2) (qrand pr.1),
        get_rarity pr.2.2⟩
    else none

/-- The quantity produced for a tier is at least 1, at most 3 for common,
at most 2 for uncommon, and exactly 1 for rare and very-rare. -/
theorem calculate_quantity_bounds (ra : DropRarity) (r : Nat) :
    1 ≤ calculate_quantity ra r ∧
    (ra = .common → calculate_quantity ra r ≤ 3) ∧
    (ra = .uncommon → calculate_quantity ra r ≤ 2) ∧
    (ra = .rare ∨ ra = .very_rare → calculate_quantity ra r = 1) := by
  have h3 : (0 : Int) ≤ (r : Int) % 3 ∧ (r : Int) % 3 < 3 :=
    ⟨Int.emod_nonneg _ (by norm_num), Int.emod_lt_of_pos _ (by norm_num)⟩
  have h2 : (0 : Int) ≤ (r : Int) % 2 ∧ (r : Int) % 2 < 2 :=
    ⟨Int.emod_nonneg _ (by norm_num), Int.emod_lt_of_pos _ (by norm_num)⟩
  cases ra <;> simp [calculate_quantity, randint] <;> omega

/-- The indexed roll agrees with the spec-side enumeration, entry by
entry, from any starting index. -/
theorem roll_drops_from_eq (luck : ℚ) (rand : Nat → ℚ) (qrand : Nat → Nat) :
    ∀ (table : List (String × ℚ)) (i : Nat),
      roll_drops_from table luck rand qrand i =
        (List.enumFrom i table).filterMap fun pr =>
          if rand pr.1 < min 1 (pr.2.2 * luck) then
            some ⟨pr.2.1, calculate_quantity (get_rarity pr.2.2) (qrand pr.1),
              get_rarity pr.2.2⟩
          else none := by
  intro table
  induction table with
  | nil => intro i; rfl
  | cons hd tl ih =>
      intro i
      obtain ⟨nm, ch⟩ := hd
      simp only [roll_drops_from, List.enumFrom, List.filterMap_cons]
      split <;> simp [ih (i + 1)]

/-- A member of the indexed roll got its quantity from its own rarity
tier's roll. -/
theorem roll_drops_from_quantity (luck : ℚ) (rand : Nat → ℚ)
    (qrand : Nat → Nat) :
    ∀ (table : List (String × ℚ)) (i : Nat) (d : Drop),
      d ∈ roll_drops_from table luck rand qrand i →
      ∃ r, d.quantity = calculate_quantity d.rarity r := by
  intro table
  induction table with
  | nil => intro i d h; cases h
  | cons hd tl ih =>
      intro i d h
      obtain ⟨nm, ch⟩ := hd
      simp only [roll_drops_from] at h
      by_cases hr : rand i < min 1 (ch * luck)
      · rw [if_pos hr] at h
        rcases List.mem_cons.mp h with heq | hmem
        · exact ⟨qrand i, by rw [heq]⟩
        · exact ih (i + 1) d hmem
      · rw [if_neg hr] at h
        exact ih (i + 1) d h

/-- With a zero luck modifier no entry's draw can be below the effective
chance, so the roll is empty from any index. -/
theorem roll_drops_from_zero_luck (rand : Nat → ℚ) (qrand : Nat → Nat)
    (hrand : ∀ i, 0 ≤ rand i) :
    ∀ (table : List (String × ℚ)) (i : Nat),
      roll_drops_from table 0 rand qrand i = [] := by
  intro table
  induction table with
  | nil => intro i; rfl
  | cons hd tl ih =>
      intro i
      obtain ⟨nm, ch⟩ := hd
      have hno : ¬ rand i < min 1 (ch * 0) := by
        rw [mul_zero, min_eq_right (by norm_num : (0:ℚ) ≤ 1)]
        exact not_lt.mpr (hrand i)
      simp only [roll_drops_from, if_neg hno]
      exact ih (i + 1)

/-- Claim C8: `roll_drops` drops the entry at index `i` exactly when its
draw is below `min(1, base_chance * luck)`, classifying rarity from the
base chance and rolling the tier's quantity (the spec-side enumeration
`specRollDrops`); with luck 0 the result is always empty; every dropped
quantity lies in the tier's range — `[1,3]` common, `[1,2]` uncommon,
exactly 1 for rare and very-rare. -/
theorem roll_drops_spec (table : List (String × ℚ)) (luck : ℚ)
    (rand : Nat → ℚ) (qrand : Nat → Nat) :
    roll_drops table luck rand qrand = specRollDrops table luck rand qrand ∧
    ((∀ i, 0 ≤ rand i) → roll_drops table 0 rand qrand = []) ∧
    (∀ d ∈ roll_drops table luck rand qrand,
      1 ≤ d.quantity ∧
      (d.rarity = .common → d.quantity ≤ 3) ∧
      (d.rarity = .uncommon → d.quantity ≤ 2) ∧
      (d.rarity = .rare ∨ d.rarity = .very_rare → d.quantity = 1)) := by
  refine ⟨roll_drops_from_eq luck rand qrand table 0,
    fun hrand => roll_drops_from_zero_luck rand qrand hrand table 0,
    fun d hd => ?_⟩
  obtain ⟨r, hr⟩ := roll_drops_from_quantity luck rand qrand table 0 d hd
  have hb := calculate_quantity_bounds d.rarity r
  rw [hr]
  exact hb

/-- Witness for C8: a one-entry table (stone at chance 0.5) with luck 0
and draws pinned at 0 yields no drops, via the luck-zero clause. -/
theorem roll_drops_spec_witness :
    roll_drops [("Камень", mkRat 1 2)] 0 (fun _ => 0) (fun _ => 0) = [] :=
  (roll_drops_spec [("Камень", mkRat 1 2)] 0 (fun _ => 0) (fun _ => 0)).2.1
    (fun _ => le_refl 0)

/-- The `(name, type)` stack of a cons cell. -/
theorem stack_entries_cons (x : Item) (xs : List Item) (n t : String) :
    stack_entries (x :: xs) n t =
      if x.name = n ∧ x.type = t then x :: stack_entries xs n t
      else stack_entries xs n t := by
  by_cases h : x.name = n ∧ x.type = t <;>
    simp [stack_entries, List.filter_cons, h]

/-- Merging an item touches no stack with a different key. -/
theorem add_item_stack_other (it : Item) (n t : String)
    (h : ¬ (it.name = n ∧ it.type = t)) (inv : List Item) :
    stack_entries (add_item_to_inventory inv it) n t = stack_entries inv n t := by
  induction inv with
  | nil =>
      simp [add_item_to_inventory, stack_entries_cons, h, stack_entries]
  | cons x xs ih =>
      obtain ⟨xn, xt, xq, xd, xdf, xh⟩ := x
      by_cases hm : xn = it.name ∧ xt = it.type
      · have hx : ¬ (xn = n ∧ xt = t) := fun hc =>
          h ⟨hm.1.symm.trans hc.1, hm.2.symm.trans hc.2⟩
        simp [add_item_to_inventory, hm, stack_entries_cons, hx, h]
      · simp [add_item_to_inventory, hm, stack_entries_cons, ih]

/-- Merging an item into its own stack: the stack's entry count becomes
`max 1 count` (one entry appears when there was none, an existing first
entry absorbs the quantity otherwise), and the stack's total quantity
grows by the item's quantity. -/
theorem add_item_stack_self (it : Item) (inv : List Item) :
    (stack_entries (add_item_to_inventory inv it) it.name it.type).length =
      max 1 (stack_entries inv it.name it.type).length ∧
    ((stack_entries (add_item_to_inventory inv it) it.name it.type).map
        Item.quantity).sum =
      ((stack_entries inv it.name it.type).map Item.quantity).sum +
        it.quantity := by
  induction inv with
  | nil =>
      simp [add_item_to_inventory, stack_entries_cons, stack_entries]
  | cons x xs ih =>
      obtain ⟨xn, xt, xq, xd, xdf, xh⟩ := x
      by_cases hm : xn = it.name ∧ xt = it.type
      · constructor
        · simp only [add_item_to_inventory, if_pos hm, stack_entries_cons]
          simp [hm.1, hm.2]
        · simp only [add_item_to_inventory, if_pos hm, stack_entries_cons]
          simp [hm.1, hm.2]
          ring
      · constructor
        · simpa [add_item_to_inventory, hm, stack_entries_cons] using ih.1
        · simpa [add_item_to_inventory, hm, stack_entries_cons] using ih.2

/-- Folding drops over an inventory keeps every `misc` stack's entry
count at one or below. -/
theorem victory_drops_count (drops : List Drop) :
    ∀ (inv : List Item) (n : String), stackCount inv n "misc" ≤ 1 →
      stackCount (victory_add_drops inv drops) n "misc" ≤ 1 := by
  induction drops with
  | nil => exact fun inv n h => h
  | cons d ds ih =>
      intro inv n h
      have step : victory_add_drops inv (d :: ds) =
          victory_add_drops (add_item_to_inventory inv (dropToItem d)) ds := rfl
      rw [step]
      apply ih
      by_cases hn : d.name = n
      · subst hn
        have hc := (add_item_stack_self (dropToItem d) inv).1
        simp only [stackCount, dropToItem] at hc h ⊢
        omega
      · have hc := add_item_stack_other (dropToItem d) n "misc"
          (by simp [dropToItem, hn]) inv
        simpa [stackCount, hc] using h

/-- Folding drops over an inventory leaves every non-`misc` stack
untouched. -/
theorem victory_drops_other (drops : List Drop) :
    ∀ (inv : List Item) (n t : String), t ≠ "misc" →
      stack_entries (victory_add_drops inv drops) n t = stack_entries inv n t := by
  induction drops with
  | nil => exact fun inv n t _ => rfl
  | cons d ds ih =>
      intro inv n t ht
      have step : victory_add_drops inv (d :: ds) =
          victory_add_drops (add_item_to_inventory inv (dropToItem d)) ds := rfl
      rw [step, ih _ n t ht]
      exact add_item_stack_other (dropToItem d) n t
        (fun hc => ht (hc.2.symm)) inv

/-- Folding drops over an inventory adds each same-named drop's quantity
to the `misc` stack's total. -/
theorem victory_drops_qty (drops : List Drop) :
    ∀ (inv : List Item) (n : String),
      stackQty (victory_add_drops inv drops) n "misc" =
        stackQty inv n "misc" +
          ((drops.filter (fun d => decide (d.name = n))).map Drop.quantity).sum := by
  induction drops with
  | nil => simp [victory_add_drops, stackQty]
  | cons d ds ih =>
      intro inv n
      have step : victory_add_drops inv (d :: ds) =
          victory_add_drops (add_item_to_inventory inv (dropToItem d)) ds := rfl
      rw [step, ih _ n]
      by_cases hn : d.name = n
      · subst hn
        have hq := (add_item_stack_self (dropToItem d) inv).2
        simp only [stackQty, dropToItem] at hq ⊢
        simp [List.filter_cons, hq]
        ring
      · have hc := add_item_stack_other (dropToItem d) n "misc"
          (by simp [dropToItem, hn]) inv
        simp [stackQty, hc, List.filter_cons, hn]

/-- Claim C10: on victory every rolled drop becomes an item of type
`misc` carrying the rolled quantity; merging the drops preserves "at most
one `misc` stack per name" and adds the rolled quantities to that stack's
total, and a stack with the same name but a different type is never
touched. -/
theorem victory_drop_merge_spec (inv : List Item) (drops : List Drop) :
    (∀ d : Drop, (dropToItem d).type = "misc" ∧
      (dropToItem d).quantity = d.quantity) ∧
    (∀ n, stackCount inv n "misc" ≤ 1 →
      stackCount (victory_add_drops inv drops) n "misc" ≤ 1) ∧
    (∀ n t, t ≠ "misc" →
      stack_entries (victory_add_drops inv drops) n t = stack_entries inv n t) ∧
    (∀ n, stackQty (victory_add_drops inv drops) n "misc" =
      stackQty inv n "misc" +
        ((drops.filter (fun d => decide (d.name = n))).map Drop.quantity).sum) :=
  ⟨fun _ => ⟨rfl, rfl⟩,
   fun n => victory_drops_count drops inv n,
   fun n t ht => victory_drops_other drops inv n t ht,
   fun n => victory_drops_qty drops inv n⟩

/-- Witness for C10: two stone drops (quantities 2 and 1) merge into a
single `misc` stack of 3 on an inventory already holding a stone of type
`weapon`, which stays untouched. -/
theorem victory_drop_merge_spec_witness :
    stackCount (victory_add_drops [⟨"Камень", "weapon", 4, 2, 0, 0⟩]
      [⟨"Камень", 2, .common⟩, ⟨"Камень", 1, .common⟩]) "Камень" "misc" ≤ 1 ∧
    stack_entries (victory_add_drops [⟨"Камень", "weapon", 4, 2, 0, 0⟩]
      [⟨"Камень", 2, .common⟩, ⟨"Камень", 1, .common⟩]) "Камень" "weapon" =
      stack_entries [⟨"Камень", "weapon", 4, 2, 0, 0⟩] "Камень" "weapon" ∧
    stackQty (victory_add_drops [⟨"Камень", "weapon", 4, 2, 0, 0⟩]
      [⟨"Камень", 2, .common⟩, ⟨"Камень", 1, .common⟩]) "Камень" "misc" =
      0 + ((([⟨"Камень", 2, .common⟩, ⟨"Камень", 1, .common⟩] : List Drop).filter
        (fun d => decide (d.name = "Камень"))).map Drop.quantity).sum := by
  have h := victory_drop_merge_spec [⟨"Камень", "weapon", 4, 2, 0, 0⟩]
    [⟨"Камень", 2, .common⟩, ⟨"Камень", 1, .common⟩]
  refine ⟨h.2.1 "Камень" (by decide), h.2.2.1 "Камень" "weapon" (by decide), ?_⟩
  have hq := h.2.2.2 "Камень"
  exact hq.trans (by decide)
